import Mathlib

/-
Verification of the order-execution engine against its specification.
The definitions below are a shallow embedding of the TypeScript sources:
  - src/services/dexRouter.ts      (MockDexRouter: quotes and route selection)
  - src/services/orderProcessor.ts (OrderProcessor.processOrder lifecycle)
  - src/services/orderQueue.ts     (OrderQueueService: job options, addOrder)
  - src/services/websocketManager.ts (WebSocketManager: channel registry)
  - src/routes/orders.ts           (request validation and intake)
JavaScript numbers are modelled as rationals (with none standing for NaN
where parseFloat may produce it); async effects are modelled by explicit
state passing and an outcome environment recording which fallible steps
succeed.
-/

set_option linter.unusedVariables false

namespace OrderExec

/-- Order status enumeration, from src/types/order.types.ts. -/
inductive OrderStatus
  | PENDING
  | ROUTING
  | BUILDING
  | SUBMITTED
  | CONFIRMED
  | FAILED
deriving DecidableEq, Repr

/-- Order type enumeration, from src/types/order.types.ts. -/
inductive OrderType
  | MARKET
  | LIMIT
  | SNIPER
deriving DecidableEq, Repr

/-- DEX quote record, from src/types/order.types.ts (DexQuote). -/
structure DexQuote where
  dex : String
  price : ℚ
  fee : ℚ
  estimatedOutput : ℚ
  impact : Option ℚ := none
deriving DecidableEq, Repr

/-- Quote from Raydium, from MockDexRouter.getRaydiumQuote.  The price is
drawn at run time from a range; here it is a parameter, as is the random
impact.  Fee and the estimated-output formula are literal from the source. -/
def getRaydiumQuote (tokenIn tokenOut : String) (amount price impact : ℚ) : DexQuote :=
  let fee : ℚ := 0.003
  let estimatedOutput := amount * price * (1 - fee)
  { dex := "Raydium"
    price := price
    fee := fee
    estimatedOutput := estimatedOutput
    impact := some impact }

/-- Quote from Meteora, from MockDexRouter.getMeteorQuote.  Fee and the
estimated-output formula are literal from the source. -/
def getMeteorQuote (tokenIn tokenOut : String) (amount price impact : ℚ) : DexQuote :=
  let fee : ℚ := 0.002
  let estimatedOutput := amount * price * (1 - fee)
  { dex := "Meteora"
    price := price
    fee := fee
    estimatedOutput := estimatedOutput
    impact := some impact }

/-- Route selection, from MockDexRouter.selectBestRoute: the source is the
conditional expression
  raydiumQuote.estimatedOutput > meteoraQuote.estimatedOutput
    ? raydiumQuote : meteoraQuote. -/
def selectBestRoute (raydiumQuote meteoraQuote : DexQuote) : DexQuote :=
  if raydiumQuote.estimatedOutput > meteoraQuote.estimatedOutput then
    raydiumQuote
  else
    meteoraQuote

/-- Concrete quote with estimated output 99.7 (spec example A, first pair). -/
def quoteA1 : DexQuote :=
  { dex := "Raydium", price := 1, fee := 0.003, estimatedOutput := 99.7 }

/-- Concrete quote with estimated output 100.098 (spec example B, first pair). -/
def quoteB1 : DexQuote :=
  { dex := "Meteora", price := 1, fee := 0.002, estimatedOutput := 100.098 }

/-- Concrete quote with estimated output 101.694 (spec example A, second pair). -/
def quoteA2 : DexQuote :=
  { dex := "Raydium", price := 1, fee := 0.003, estimatedOutput := 101.694 }

/-- Concrete quote with estimated output 99.8 (spec example B, second pair). -/
def quoteB2 : DexQuote :=
  { dex := "Meteora", price := 1, fee := 0.002, estimatedOutput := 99.8 }

/-- First of two distinct quotes with equal estimated outputs (tie case). -/
def quoteTieA : DexQuote :=
  { dex := "Raydium", price := 1, fee := 0.003, estimatedOutput := 100 }

/-- Second of two distinct quotes with equal estimated outputs (tie case). -/
def quoteTieB : DexQuote :=
  { dex := "Meteora", price := 1, fee := 0.002, estimatedOutput := 100 }

/-- A published status-update message, from the WebSocket update shape used
by OrderProcessor.emitWebSocketUpdate and orders.ts (orderId, status,
optional txHash / dex / executedPrice on SUBMITTED and CONFIRMED, optional
error string on FAILED, optional message on the initial PENDING send). -/
structure StatusUpdate where
  orderId : String
  status : OrderStatus
  txHash : Option String := none
  dex : Option String := none
  executedPrice : Option ℚ := none
  error : Option String := none
  message : Option String := none
deriving DecidableEq, Repr

/-- Result of MockDexRouter.executeBestRoute: txHash, executedPrice, dex. -/
structure ExecResult where
  txHash : String
  executedPrice : ℚ
  dex : String
deriving DecidableEq, Repr

/-- Outcome environment for one run of OrderProcessor.processOrder: which
fallible awaited steps succeed.  Each field models one point where the
source can throw (database updates, the findUnique lookup, route
execution, and the FAILED update inside the catch block). -/
structure ProcEnv where
  updRouting : Bool
  orderFound : Bool
  updBuilding : Bool
  routeOk : Bool
  updSubmitted : Bool
  updConfirmed : Bool
  updFailed : Bool
deriving DecidableEq, Repr

/-- Result of one processOrder run: the updates emitted to the Status
Publisher, the order status left in the store, and the error re-raised to
the worker pool (none on success). -/
structure ProcResult where
  emitted : List StatusUpdate
  storeStatus : OrderStatus
  err : Option String
deriving DecidableEq, Repr

/-- Message of the error thrown by a failing store update
(OrderProcessor.updateOrderStatus re-throws the store error). -/
def dbErrorMsg : String := "database update error"

/-- Message of the error thrown by a failing route execution
(MockDexRouter.executeBestRoute wraps and re-throws). -/
def routeErrorMsg : String := "Route execution failed"

/-- Message thrown when the order record is missing, from processOrder. -/
def orderNotFoundMsg (orderId : String) : String :=
  "Order " ++ orderId ++ " not found in database"

/-- A bare status update with no extra fields, as emitted for ROUTING and
BUILDING by processOrder. -/
def plainUpdate (orderId : String) (status : OrderStatus) : StatusUpdate :=
  { orderId := orderId, status := status }

/-- The SUBMITTED update, carrying txHash, dex and executedPrice, from
processOrder step 5. -/
def submittedUpdate (orderId : String) (exec : ExecResult) : StatusUpdate :=
  { orderId := orderId, status := OrderStatus.SUBMITTED,
    txHash := some exec.txHash, dex := some exec.dex,
    executedPrice := some exec.executedPrice }

/-- The CONFIRMED update, carrying txHash, dex and executedPrice, from
processOrder step 7. -/
def confirmedUpdate (orderId : String) (exec : ExecResult) : StatusUpdate :=
  { orderId := orderId, status := OrderStatus.CONFIRMED,
    txHash := some exec.txHash, dex := some exec.dex,
    executedPrice := some exec.executedPrice }

/-- The catch block of processOrder: await updateOrderStatus(FAILED) — if
that store update itself throws, its error propagates and no FAILED update
is emitted; otherwise the FAILED update with the original error message is
emitted and the original error re-thrown. -/
def runCatch (orderId : String) (env : ProcEnv) (emitted : List StatusUpdate)
    (store : OrderStatus) (msg : String) : ProcResult :=
  if env.updFailed then
    { emitted := emitted ++
        [{ orderId := orderId, status := OrderStatus.FAILED, error := some msg }]
      storeStatus := OrderStatus.FAILED
      err := some msg }
  else
    { emitted := emitted, storeStatus := store, err := some dbErrorMsg }

/-- OrderProcessor.processOrder: the per-job lifecycle.  The store starts at
PENDING (set by the intake layer).  Steps in source order: update to
ROUTING and emit; findUnique the order; update to BUILDING and emit;
executeBestRoute; update to SUBMITTED with execution fields and emit;
sleep; update to CONFIRMED and emit.  Any throw lands in runCatch. -/
def processOrder (orderId : String) (env : ProcEnv) (exec : ExecResult) : ProcResult :=
  if env.updRouting then
    let t1 := [plainUpdate orderId OrderStatus.ROUTING]
    if env.orderFound then
      if env.updBuilding then
        let t2 := t1 ++ [plainUpdate orderId OrderStatus.BUILDING]
        if env.routeOk then
          if env.updSubmitted then
            let t3 := t2 ++ [submittedUpdate orderId exec]
            if env.updConfirmed then
              { emitted := t3 ++ [confirmedUpdate orderId exec]
                storeStatus := OrderStatus.CONFIRMED
                err := none }
            else runCatch orderId env t3 OrderStatus.SUBMITTED dbErrorMsg
          else runCatch orderId env t2 OrderStatus.BUILDING dbErrorMsg
        else runCatch orderId env t2 OrderStatus.BUILDING routeErrorMsg
      else runCatch orderId env t1 OrderStatus.ROUTING dbErrorMsg
    else runCatch orderId env t1 OrderStatus.ROUTING (orderNotFoundMsg orderId)
  else runCatch orderId env [] OrderStatus.PENDING dbErrorMsg

/-- The initial PENDING message sent by the intake layer (orders.ts) right
after the order is created, before the job runs. -/
def pendingUpdate (orderId : String) : StatusUpdate :=
  { orderId := orderId, status := OrderStatus.PENDING,
    message := some "Order created and queued for processing" }

/-- The success-path status pipeline, in order. -/
def statusPipeline : List OrderStatus :=
  [OrderStatus.PENDING, OrderStatus.ROUTING, OrderStatus.BUILDING,
   OrderStatus.SUBMITTED, OrderStatus.CONFIRMED]

/-- Environment used for the C2 counterexample: the order lookup fails
(step 2) and the FAILED store update in the catch block also fails. -/
def envStoreDown : ProcEnv :=
  { updRouting := true, orderFound := false, updBuilding := true,
    routeOk := true, updSubmitted := true, updConfirmed := true,
    updFailed := false }

/-- A sample execution result used to instantiate processOrder runs. -/
def execSample : ExecResult :=
  { txHash := "ab12", executedPrice := 1, dex := "Meteora" }

/-- Payload enqueued by OrderQueueService.addOrder: the CreateOrderDTO
fields plus the order id (OrderJobData in orderProcessor.ts). -/
structure OrderJobData where
  id : String
  tokenIn : String
  tokenOut : String
  amount : ℚ
  orderType : OrderType
deriving DecidableEq, Repr

/-- BullMQ job states relevant to the queue model. -/
inductive JobState
  | waiting
  | active
  | delayed
  | completed
  | failed
deriving DecidableEq, Repr

/-- A job state is terminal when the job is completed or failed. -/
def JobState.isTerminal : JobState → Bool
  | JobState.completed => true
  | JobState.failed => true
  | _ => false

/-- One job held by the queue: its key (jobId), name, payload, state. -/
structure QueueJob where
  jobId : String
  name : String
  data : OrderJobData
  state : JobState
deriving DecidableEq, Repr

/-- The order queue: the list of jobs it holds. -/
structure OrdersQueue where
  jobs : List QueueJob
deriving DecidableEq, Repr

/-- True when the queue holds a job with the given key in a non-terminal
state. -/
def hasOutstanding (q : OrdersQueue) (key : String) : Bool :=
  q.jobs.any (fun j => j.jobId == key && !j.state.isTerminal)

/-- Modelled from the spec: the Job Queue contract of section 4.1 — enqueue
keyed by order id is idempotent while a job with that key exists in a
non-terminal state (the queue library implementing this is an external
dependency, not under src/).  Returns the new queue and the job id. -/
def queueAdd (q : OrdersQueue) (name : String) (d : OrderJobData)
    (jobId : String) : OrdersQueue × String :=
  if hasOutstanding q jobId then
    (q, jobId)
  else
    ({ jobs := q.jobs ++ [{ jobId := jobId, name := name, data := d,
                            state := JobState.waiting }] }, jobId)

/-- OrderQueueService.addOrder: adds the job named process-order with
jobId set to orderData.id, and returns the job id. -/
def addOrder (q : OrdersQueue) (orderData : OrderJobData) : OrdersQueue × String :=
  queueAdd q "process-order" orderData orderData.id

/-- At most one job per key is outstanding (in a non-terminal state). -/
def AtMostOneOutstanding (q : OrdersQueue) : Prop :=
  ∀ key : String,
    (q.jobs.filter (fun j => j.jobId == key && !j.state.isTerminal)).length ≤ 1

/-- Default job options of the queue, from the OrderQueueService
constructor (attempts, backoff type and delay, retention counts). -/
structure BackoffOptions where
  type : String
  delay : ℕ
deriving DecidableEq, Repr

/-- A retention bound: keep only this many jobs. -/
structure KeepCount where
  count : ℕ
deriving DecidableEq, Repr

/-- The defaultJobOptions record passed to the Queue constructor. -/
structure DefaultJobOptions where
  attempts : ℕ
  backoff : BackoffOptions
  removeOnComplete : KeepCount
  removeOnFail : KeepCount
deriving DecidableEq, Repr

/-- The literal defaultJobOptions from orderQueue.ts (delays in ms). -/
def defaultJobOptions : DefaultJobOptions :=
  { attempts := 3
    backoff := { type := "exponential", delay := 1000 }
    removeOnComplete := { count := 100 }
    removeOnFail := { count := 50 } }

/-- Modelled from the spec: the exponentially increasing delay between
attempts (base delay, doubling) applied by the queue library for backoff
type exponential; retryIndex 0 is the delay before the first retry.  The
library computing this is an external dependency, not under src/. -/
def backoffDelay (opts : BackoffOptions) (retryIndex : ℕ) : ℕ :=
  opts.delay * 2 ^ retryIndex

/-- WebSocket ready states, from the ws library constants used by
websocketManager.ts. -/
inductive ReadyState
  | CONNECTING
  | OPEN
  | CLOSING
  | CLOSED
deriving DecidableEq, Repr

/-- State of the WebSocketManager: the registry mapping order ids to socket
handles (the connections Map), and the state of every socket handle. -/
structure WSState where
  connections : List (String × ℕ)
  socketState : ℕ → ReadyState

/-- Registry lookup (connections.get). -/
def lookupConn (conns : List (String × ℕ)) (orderId : String) : Option ℕ :=
  (conns.find? (fun p => p.1 == orderId)).map (fun p => p.2)

/-- Registry removal (connections.delete). -/
def eraseConn (conns : List (String × ℕ)) (orderId : String) :
    List (String × ℕ) :=
  conns.filter (fun p => p.1 != orderId)

/-- Registry insertion (connections.set replaces any existing binding). -/
def setConn (conns : List (String × ℕ)) (orderId : String) (sid : ℕ) :
    List (String × ℕ) :=
  eraseConn conns orderId ++ [(orderId, sid)]

/-- The keys currently bound in the registry. -/
def connKeys (conns : List (String × ℕ)) : List String :=
  conns.map (fun p => p.1)

/-- WebSocketManager.closeConnection: if a socket is registered for the id,
call close() on it when it is OPEN (modelled as moving the handle to
CLOSED) and remove it from the registry; otherwise do nothing. -/
def closeConnection (s : WSState) (orderId : String) : WSState :=
  match lookupConn s.connections orderId with
  | none => s
  | some sid =>
    { connections := eraseConn s.connections orderId
      socketState :=
        if s.socketState sid = ReadyState.OPEN then
          Function.update s.socketState sid ReadyState.CLOSED
        else s.socketState }

/-- WebSocketManager.registerConnection: close any existing connection for
the order id, then bind the id to the new socket. -/
def registerConnection (s : WSState) (orderId : String) (sid : ℕ) : WSState :=
  let s1 :=
    if (lookupConn s.connections orderId).isSome then closeConnection s orderId
    else s
  { s1 with connections := setConn s1.connections orderId sid }

/-- WebSocketManager.sendStatusUpdate: when no socket is registered for the
id the call is a silent no-op; when the registered socket is not OPEN it is
removed from the registry and nothing is sent; otherwise the update is sent.
The second component lists the messages actually sent. -/
def sendStatusUpdate (s : WSState) (orderId : String) (status : OrderStatus)
    (additionalData : Option String) : WSState × List StatusUpdate :=
  match lookupConn s.connections orderId with
  | none => (s, [])
  | some sid =>
    if s.socketState sid ≠ ReadyState.OPEN then
      ({ s with connections := eraseConn s.connections orderId }, [])
    else
      (s, [{ orderId := orderId, status := status, message := additionalData }])

/-- Sample manager state holding one binding to a CLOSED socket. -/
def wsClosedSample : WSState :=
  { connections := [("o1", 0)], socketState := fun _ => ReadyState.CLOSED }

/-- Sample manager state holding one binding to an OPEN socket. -/
def wsOpenSample : WSState :=
  { connections := [("o1", 0)], socketState := fun _ => ReadyState.OPEN }

/-- Worker options, from the OrderProcessor constructor: concurrency 10,
limiter max 100 per duration 60000 ms. -/
structure WorkerLimiter where
  max : ℕ
  duration : ℕ
deriving DecidableEq, Repr

/-- Worker options record (concurrency plus limiter). -/
structure WorkerOptions where
  concurrency : ℕ
  limiter : WorkerLimiter
deriving DecidableEq, Repr

/-- The literal worker options from orderProcessor.ts. -/
def workerOptions : WorkerOptions :=
  { concurrency := 10, limiter := { max := 100, duration := 60000 } }

/-- State of the worker pool: current time, jobs waiting, jobs executing,
and the timestamps of all job starts so far. -/
structure PoolState where
  time : ℕ
  waiting : List String
  active : List String
  starts : List ℕ

/-- Number of recorded job starts inside the sliding admission window
ending now (starts strictly newer than now − duration). -/
def startsInWindow (starts : List ℕ) (now duration : ℕ) : ℕ :=
  (starts.filter (fun t => now < t + duration)).length

/-- Modelled from the spec: the Worker Pool scheduling discipline of
section 4.2 — the pool (implemented by the external queue library, not
under src/) starts a waiting job only while fewer than concurrency jobs
are active and fewer than limiter.max starts fall in the current sliding
window; over-limit jobs stay waiting (there is no rejecting transition).
Configuration literals are workerOptions from the source. -/
inductive PoolStep (opts : WorkerOptions) : PoolState → PoolState → Prop
  | enqueue (s : PoolState) (id : String) :
      PoolStep opts s { s with waiting := s.waiting ++ [id] }
  | tick (s : PoolState) (dt : ℕ) :
      PoolStep opts s { s with time := s.time + dt }
  | start (s : PoolState) (id : String)
      (hw : id ∈ s.waiting)
      (hc : s.active.length < opts.concurrency)
      (hr : startsInWindow s.starts s.time opts.limiter.duration < opts.limiter.max) :
      PoolStep opts s
        { time := s.time, waiting := s.waiting.erase id,
          active := s.active ++ [id], starts := s.time :: s.starts }
  | finish (s : PoolState) (id : String) (ha : id ∈ s.active) :
      PoolStep opts s { s with active := s.active.erase id }

/-- States reachable from the idle pool. -/
inductive PoolReachable (opts : WorkerOptions) : PoolState → Prop
  | init : PoolReachable opts { time := 0, waiting := [], active := [], starts := [] }
  | step {s s' : PoolState} :
      PoolReachable opts s → PoolStep opts s s' → PoolReachable opts s'

/-- JavaScript falsiness of an optional string query parameter: undefined
or the empty string. -/
def jsFalsyStr : Option String → Bool
  | none => true
  | some s => s == ""

/-- JavaScript falsiness of a parseFloat result: NaN (modelled as none)
or zero. -/
def jsFalsyNum : Option ℚ → Bool
  | none => true
  | some q => decide (q = 0)

/-- Query parameters of the execute endpoint, from orders.ts: tokenIn,
tokenOut, orderType as optional strings, and the parseFloat of the amount
parameter (none standing for NaN). -/
structure ExecuteQuery where
  tokenIn : Option String
  tokenOut : Option String
  amount : Option ℚ
  orderType : Option String
deriving DecidableEq, Repr

/-- The order record created in the store by the intake layer. -/
structure OrderRecord where
  id : String
  tokenIn : String
  tokenOut : String
  amount : ℚ
  orderType : String
  status : OrderStatus
deriving DecidableEq, Repr

/-- Outcome of the execute request intake: either a structured error is
sent and the channel closed with no record and no job created, or an order
record is created and a job with the given key is enqueued. -/
inductive ExecuteOutcome
  | rejected (errorMsg : String)
  | accepted (record : OrderRecord) (jobKey : String)
deriving DecidableEq, Repr

/-- The validation and intake of orders.ts: the request is rejected exactly
when the falsiness check on tokenIn, tokenOut, parseFloat(amount) and
orderType fires; otherwise the PENDING order record is created and the job
enqueued keyed by the generated order id. -/
def handleExecuteRequest (orderId : String) (q : ExecuteQuery) : ExecuteOutcome :=
  if jsFalsyStr q.tokenIn || jsFalsyStr q.tokenOut || jsFalsyNum q.amount ||
      jsFalsyStr q.orderType then
    ExecuteOutcome.rejected
      "Missing required parameters: tokenIn, tokenOut, amount, orderType"
  else
    ExecuteOutcome.accepted
      { id := orderId
        tokenIn := q.tokenIn.getD ""
        tokenOut := q.tokenOut.getD ""
        amount := q.amount.getD 0
        orderType := q.orderType.getD ""
        status := OrderStatus.PENDING }
      orderId

/-- The statuses a single driver invocation can emit, in pipeline order
(the driver never emits PENDING; the intake layer does). -/
def attemptPipeline : List OrderStatus :=
  [OrderStatus.ROUTING, OrderStatus.BUILDING, OrderStatus.SUBMITTED,
   OrderStatus.CONFIRMED]

/-- Modelled from the spec: the attempt-based retry policy of sections 4.2
and 4.3 (and the section 9 open question) — the external queue library
(not under src/) re-invokes the Lifecycle Driver after a failed attempt,
up to the configured attempts bound; a successful run ends the job.  Each
attempt takes its own outcome environment from the list. -/
def attemptResults (orderId : String) (exec : ExecResult) :
    ℕ → List ProcEnv → List ProcResult
  | 0, _ => []
  | _ + 1, [] => []
  | n + 1, env :: rest =>
    let r := processOrder orderId env exec
    if r.err.isSome then r :: attemptResults orderId exec n rest
    else [r]

/-- All updates published for one order across its whole job: the intake
PENDING message followed by everything every driver attempt emits, the
queue retrying failed attempts up to defaultJobOptions.attempts times. -/
def publishedUpdatesJob (orderId : String) (envs : List ProcEnv)
    (exec : ExecResult) : List StatusUpdate :=
  pendingUpdate orderId ::
    ((attemptResults orderId exec defaultJobOptions.attempts envs).map
      (fun r => r.emitted)).flatten

/-- The statuses published for one order, in publication order. -/
def publishedStatusesJob (orderId : String) (envs : List ProcEnv)
    (exec : ExecResult) : List OrderStatus :=
  (publishedUpdatesJob orderId envs exec).map (fun u => u.status)

/-- Decidable check that a status sequence is a take-n of the pipeline
PENDING, ROUTING, BUILDING, SUBMITTED, CONFIRMED or such a take-n followed
by a final FAILED. -/
def pipelineCompliant (t : List OrderStatus) : Bool :=
  (List.range (statusPipeline.length + 1)).any
    (fun n => decide (t = statusPipeline.take n) ||
      decide (t = statusPipeline.take n ++ [OrderStatus.FAILED]))

/-- Environment of an attempt failing at route execution (everything else,
including the catch-block FAILED persistence, succeeds). -/
def envRouteFail : ProcEnv :=
  { updRouting := true, orderFound := true, updBuilding := true,
    routeOk := false, updSubmitted := true, updConfirmed := true,
    updFailed := true }

/-- Environment of a fully successful attempt. -/
def envAllOk : ProcEnv :=
  { updRouting := true, orderFound := true, updBuilding := true,
    routeOk := true, updSubmitted := true, updConfirmed := true,
    updFailed := true }

-- ===================== THEOREMS =====================

/-- Every single driver invocation emits a take-n of the attempt pipeline
ROUTING, BUILDING, SUBMITTED, CONFIRMED, or such a take-n followed by a
final FAILED, for every outcome environment. -/
theorem processOrder_run_statuses
    (orderId : String) (env : ProcEnv) (exec : ExecResult) :
    ∃ n : ℕ,
      (processOrder orderId env exec).emitted.map (fun u => u.status) =
        attemptPipeline.take n ∨
      (processOrder orderId env exec).emitted.map (fun u => u.status) =
        attemptPipeline.take n ++ [OrderStatus.FAILED] := by
  obtain ⟨a, b, c, d, e, f, g⟩ := env
  cases a <;> cases b <;> cases c <;> cases d <;> cases e <;> cases f <;> cases g <;>
    first
      | exact ⟨0, Or.inl rfl⟩
      | exact ⟨1, Or.inl rfl⟩
      | exact ⟨2, Or.inl rfl⟩
      | exact ⟨3, Or.inl rfl⟩
      | exact ⟨4, Or.inl rfl⟩
      | exact ⟨0, Or.inr rfl⟩
      | exact ⟨1, Or.inr rfl⟩
      | exact ⟨2, Or.inr rfl⟩
      | exact ⟨3, Or.inr rfl⟩

/-- A job makes at most n attempt runs when the retry bound is n. -/
theorem attemptResults_length_le (orderId : String) (exec : ExecResult) :
    ∀ (n : ℕ) (envs : List ProcEnv),
      (attemptResults orderId exec n envs).length ≤ n := by
  intro n
  induction n with
  | zero => intro envs; simp [attemptResults]
  | succ m ih =>
    intro envs
    cases envs with
    | nil => simp [attemptResults]
    | cons env rest =>
      simp only [attemptResults]
      by_cases h : (processOrder orderId env exec).err.isSome
      · rw [if_pos h]
        have hrec := ih rest
        simp only [List.length_cons]
        omega
      · rw [if_neg h]
        simp

/-- Every attempt run of a job is one processOrder invocation. -/
theorem mem_attemptResults (orderId : String) (exec : ExecResult) :
    ∀ (n : ℕ) (envs : List ProcEnv) (r : ProcResult),
      r ∈ attemptResults orderId exec n envs →
      ∃ env : ProcEnv, r = processOrder orderId env exec := by
  intro n
  induction n with
  | zero => intro envs r hr; simp [attemptResults] at hr
  | succ m ih =>
    intro envs r hr
    cases envs with
    | nil => simp [attemptResults] at hr
    | cons env rest =>
      simp only [attemptResults] at hr
      by_cases h : (processOrder orderId env exec).err.isSome
      · rw [if_pos h] at hr
        rcases List.mem_cons.mp hr with h1 | h2
        · exact ⟨env, h1⟩
        · exact ih rest r h2
      · rw [if_neg h] at hr
        rw [List.mem_singleton] at hr
        exact ⟨env, hr⟩

/-- The decidable check pipelineCompliant is complete for the claimed
pipeline-take-or-final-FAILED shape of a status sequence. -/
theorem pipelineCompliant_of_prefix_or_failed (t : List OrderStatus)
    (h : ∃ n : ℕ, t = statusPipeline.take n ∨
      t = statusPipeline.take n ++ [OrderStatus.FAILED]) :
    pipelineCompliant t = true := by
  obtain ⟨n, hn⟩ := h
  have hmin : statusPipeline.take n = statusPipeline.take (min n 5) := by
    rcases le_or_lt n 5 with hle | hgt
    · rw [min_eq_left hle]
    · rw [min_eq_right (le_of_lt hgt)]
      rw [List.take_of_length_le (by simp [statusPipeline]; omega),
        List.take_of_length_le (by simp [statusPipeline])]
  rw [hmin] at hn
  unfold pipelineCompliant
  rw [List.any_eq_true]
  refine ⟨min n 5, ?_, ?_⟩
  · rw [List.mem_range]
    have hm : min n 5 ≤ 5 := Nat.min_le_right n 5
    simp only [statusPipeline, List.length_cons, List.length_nil]
    omega
  · rcases hn with h1 | h1 <;> simp [h1]

/-- C1 counterexample: with a first attempt failing at route execution and
the retried second attempt succeeding, the statuses published for the one
order are PENDING, ROUTING, BUILDING, FAILED, ROUTING, BUILDING, SUBMITTED,
CONFIRMED — FAILED is followed by ROUTING, so the sequence is neither a
pipeline take-n nor such a take-n with a final FAILED (pipelineCompliant
is false; by pipelineCompliant_of_prefix_or_failed the claimed shape would
force it true). -/
theorem retry_reentry_pipeline_counterexample :
    publishedStatusesJob "order-1" [envRouteFail, envAllOk] execSample =
      [OrderStatus.PENDING, OrderStatus.ROUTING, OrderStatus.BUILDING,
       OrderStatus.FAILED, OrderStatus.ROUTING, OrderStatus.BUILDING,
       OrderStatus.SUBMITTED, OrderStatus.CONFIRMED] ∧
    pipelineCompliant
      (publishedStatusesJob "order-1" [envRouteFail, envAllOk] execSample) =
      false := by
  decide

/-- C1 amended: the statuses published for one order are PENDING followed
by the concatenation of the per-attempt sequences of at most 3 driver
invocations (the queue retries failed attempts); each single invocation is
pipeline-ordered — a take-n of ROUTING, BUILDING, SUBMITTED, CONFIRMED or
such a take-n with a final FAILED — but across a retry boundary a FAILED
may be followed by the next attempt's ROUTING, so FAILED need not be final
for the whole order. -/
theorem published_statuses_per_attempt_pipeline
    (orderId : String) (envs : List ProcEnv) (exec : ExecResult) :
    ∃ ts : List (List OrderStatus),
      publishedStatusesJob orderId envs exec =
        OrderStatus.PENDING :: ts.flatten ∧
      ts.length ≤ defaultJobOptions.attempts ∧
      ∀ t ∈ ts, ∃ n : ℕ,
        t = attemptPipeline.take n ∨
        t = attemptPipeline.take n ++ [OrderStatus.FAILED] := by
  refine ⟨(attemptResults orderId exec defaultJobOptions.attempts envs).map
      (fun r => r.emitted.map (fun u => u.status)), ?_, ?_, ?_⟩
  · unfold publishedStatusesJob publishedUpdatesJob
    simp [pendingUpdate, List.map_flatten, List.map_map, Function.comp_def]
  · simpa using
      attemptResults_length_le orderId exec defaultJobOptions.attempts envs
  · intro t ht
    rw [List.mem_map] at ht
    obtain ⟨r, hr, hrt⟩ := ht
    obtain ⟨env, henv⟩ := mem_attemptResults orderId exec _ envs r hr
    rw [← hrt, henv]
    exact processOrder_run_statuses orderId env exec

/-- C2 counterexample: when the order lookup fails and the store is also
unreachable for the catch-block FAILED update, the attempt fails (an error
is re-raised to the worker pool) but no FAILED status is ever published and
the store is not moved to FAILED — the claim fails for this cause of
failure. -/
theorem failure_without_failed_update_counterexample :
    (processOrder "order-1" envStoreDown execSample).err = some dbErrorMsg ∧
    (processOrder "order-1" envStoreDown execSample).storeStatus =
      OrderStatus.ROUTING ∧
    (processOrder "order-1" envStoreDown execSample).emitted.map
        (fun u => u.status) = [OrderStatus.ROUTING] := by
  decide

/-- C2 amended: on any failure during processing, provided the catch-block
persistence of FAILED itself succeeds, the order is moved to FAILED in the
store, a FAILED update carrying the human-readable failure reason is
published last, and the same error is then re-raised to the worker pool. -/
theorem failure_publishes_failed_then_reraises
    (orderId : String) (env : ProcEnv) (exec : ExecResult)
    (hupd : env.updFailed = true)
    (hfail : (processOrder orderId env exec).err.isSome = true) :
    (processOrder orderId env exec).storeStatus = OrderStatus.FAILED ∧
    ((processOrder orderId env exec).emitted.map (fun u => u.status)).getLast? =
      some OrderStatus.FAILED ∧
    ((processOrder orderId env exec).emitted.getLast?.bind (fun u => u.error)) =
      (processOrder orderId env exec).err := by
  obtain ⟨a, b, c, d, e, f, g⟩ := env
  revert hupd hfail
  cases a <;> cases b <;> cases c <;> cases d <;> cases e <;> cases f <;> cases g <;>
    intro hupd hfail <;>
    first
      | exact ⟨rfl, rfl, rfl⟩
      | exact Bool.noConfusion hupd
      | exact Bool.noConfusion hfail

/-- Witness for C2 amended: with a failing order lookup and a working store
for the FAILED update, the conclusion holds concretely. -/
theorem failure_publishes_failed_then_reraises_witness :
    (processOrder "order-1"
        { envStoreDown with updFailed := true } execSample).storeStatus =
      OrderStatus.FAILED ∧
    ((processOrder "order-1"
        { envStoreDown with updFailed := true } execSample).emitted.map
        (fun u => u.status)).getLast? = some OrderStatus.FAILED ∧
    ((processOrder "order-1"
        { envStoreDown with updFailed := true } execSample).emitted.getLast?.bind
        (fun u => u.error)) =
      (processOrder "order-1"
        { envStoreDown with updFailed := true } execSample).err :=
  failure_publishes_failed_then_reraises "order-1"
    { envStoreDown with updFailed := true } execSample (by decide) (by decide)

/-- C3: selectBestRoute returns the first quote exactly when its estimated
output is strictly greater, and the second quote otherwise (including on an
exact tie); concretely, for outputs (99.7, 100.098) it returns the second
quote, for (101.694, 99.8) the first, and for equal outputs the second. -/
theorem selectBestRoute_strictly_greater_wins_tie_second :
    (∀ a b : DexQuote,
      (b.estimatedOutput < a.estimatedOutput → selectBestRoute a b = a) ∧
      (a.estimatedOutput ≤ b.estimatedOutput → selectBestRoute a b = b)) ∧
    selectBestRoute quoteA1 quoteB1 = quoteB1 ∧
    selectBestRoute quoteA2 quoteB2 = quoteA2 ∧
    selectBestRoute quoteTieA quoteTieB = quoteTieB := by
  refine ⟨fun a b => ⟨fun h => ?_, fun h => ?_⟩, ?_, ?_, ?_⟩
  · simp [selectBestRoute, h]
  · simp [selectBestRoute, not_lt_of_le h]
  · simp [selectBestRoute, quoteA1, quoteB1]
    norm_num
  · simp [selectBestRoute, quoteA2, quoteB2]
    norm_num
  · simp [selectBestRoute, quoteTieA, quoteTieB]

/-- Witness for C3: the general comparison rule applied at concrete quotes
with outputs 5 and 3, and at concrete quotes with outputs 3 and 5. -/
theorem selectBestRoute_strictly_greater_wins_tie_second_witness :
    selectBestRoute { dex := "Raydium", price := 1, fee := 0, estimatedOutput := 5 }
        { dex := "Meteora", price := 1, fee := 0, estimatedOutput := 3 } =
      { dex := "Raydium", price := 1, fee := 0, estimatedOutput := 5 } ∧
    selectBestRoute { dex := "Raydium", price := 1, fee := 0, estimatedOutput := 3 }
        { dex := "Meteora", price := 1, fee := 0, estimatedOutput := 5 } =
      { dex := "Meteora", price := 1, fee := 0, estimatedOutput := 5 } :=
  ⟨(selectBestRoute_strictly_greater_wins_tie_second.1 _ _).1 (by norm_num),
   (selectBestRoute_strictly_greater_wins_tie_second.1 _ _).2 (by norm_num)⟩

/-- C4: every quote produced by a quote source satisfies
estimatedOutput = amount × price × (1 − fee), with fee 0.003 for Raydium
and 0.002 for Meteora; over the rationals the identity is exact, hence in
particular within floating-point tolerance. -/
theorem quote_estimatedOutput_formula
    (tokenIn tokenOut : String) (amount price impact : ℚ) :
    ((getRaydiumQuote tokenIn tokenOut amount price impact).estimatedOutput =
        amount * price *
          (1 - (getRaydiumQuote tokenIn tokenOut amount price impact).fee) ∧
      (getRaydiumQuote tokenIn tokenOut amount price impact).fee = 3 / 1000) ∧
    ((getMeteorQuote tokenIn tokenOut amount price impact).estimatedOutput =
        amount * price *
          (1 - (getMeteorQuote tokenIn tokenOut amount price impact).fee) ∧
      (getMeteorQuote tokenIn tokenOut amount price impact).fee = 2 / 1000) := by
  refine ⟨⟨rfl, ?_⟩, ⟨rfl, ?_⟩⟩ <;> norm_num [getRaydiumQuote, getMeteorQuote]

/-- Sample payload used to instantiate queue operations. -/
def sampleJobData : OrderJobData :=
  { id := "o1", tokenIn := "SOL", tokenOut := "USDC", amount := 5,
    orderType := OrderType.MARKET }

/-- A queue already holding one outstanding (waiting) job keyed o1. -/
def sampleQueueOne : OrdersQueue :=
  { jobs := [{ jobId := "o1", name := "process-order", data := sampleJobData,
               state := JobState.waiting }] }

/-- C5: every enqueue call keys the job by the order id; enqueueing while a
job with that id is outstanding (non-terminal) changes nothing; and the
at-most-one-outstanding-job-per-id invariant is preserved by enqueue. -/
theorem addOrder_keyed_by_id_idempotent :
    (∀ (q : OrdersQueue) (d : OrderJobData), (addOrder q d).2 = d.id) ∧
    (∀ (q : OrdersQueue) (d : OrderJobData),
      hasOutstanding q d.id = true → (addOrder q d).1 = q) ∧
    (∀ (q : OrdersQueue) (d : OrderJobData),
      AtMostOneOutstanding q → AtMostOneOutstanding (addOrder q d).1) := by
  refine ⟨fun q d => ?_, fun q d h => ?_, fun q d h => ?_⟩
  · unfold addOrder queueAdd
    split <;> rfl
  · simp [addOrder, queueAdd, h]
  · intro key
    by_cases hq : hasOutstanding q d.id
    · simpa [addOrder, queueAdd, hq] using h key
    · have hq' : q.jobs.any (fun j => j.jobId == d.id && !j.state.isTerminal) = false := by
        simpa [hasOutstanding] using hq
      have hnil : ∀ j ∈ q.jobs, ¬(j.jobId == d.id && !j.state.isTerminal) = true := by
        intro j hj hcontra
        have hany : q.jobs.any (fun j => j.jobId == d.id && !j.state.isTerminal) = true :=
          List.any_eq_true.mpr ⟨j, hj, hcontra⟩
        rw [hq'] at hany
        cases hany
      have hjobs : (addOrder q d).1.jobs = q.jobs ++
          [{ jobId := d.id, name := "process-order", data := d,
             state := JobState.waiting }] := by
        simp [addOrder, queueAdd, hq]
      by_cases hk : key = d.id
      · subst hk
        have h0 : q.jobs.filter (fun j => j.jobId == d.id && !j.state.isTerminal) = [] :=
          List.filter_eq_nil_iff.mpr hnil
        rw [hjobs, List.filter_append, h0, List.length_append]
        simp [List.filter_singleton, JobState.isTerminal]
      · have hne : (d.id == key) = false :=
          beq_eq_false_iff_ne.mpr (Ne.symm hk)
        have hsing : List.filter (fun j => j.jobId == key && !j.state.isTerminal)
            [({ jobId := d.id, name := "process-order", data := d,
                state := JobState.waiting } : QueueJob)] = [] := by
          simp [List.filter_singleton, hne]
        rw [hjobs, List.filter_append, hsing, List.length_append]
        simpa using h key

/-- Witness for C5: concrete applications — the returned key is the order
id, re-enqueueing to a queue already holding an outstanding o1 job is a
no-op, and the invariant holds after enqueueing into the empty queue. -/
theorem addOrder_keyed_by_id_idempotent_witness :
    (addOrder { jobs := [] } sampleJobData).2 = "o1" ∧
    (addOrder sampleQueueOne sampleJobData).1 = sampleQueueOne ∧
    AtMostOneOutstanding (addOrder { jobs := [] } sampleJobData).1 :=
  ⟨addOrder_keyed_by_id_idempotent.1 { jobs := [] } sampleJobData,
   addOrder_keyed_by_id_idempotent.2.1 sampleQueueOne sampleJobData (by decide),
   addOrder_keyed_by_id_idempotent.2.2 { jobs := [] } sampleJobData
     (fun key => by simp [AtMostOneOutstanding])⟩

/-- C6: every job created by the queue is configured with 3 attempts,
exponential backoff doubling from a base delay of 1000 ms (one time unit),
retention of the last 100 completed and the last 50 failed jobs. -/
theorem defaultJobOptions_retry_and_retention :
    defaultJobOptions.attempts = 3 ∧
    defaultJobOptions.backoff.type = "exponential" ∧
    backoffDelay defaultJobOptions.backoff 0 = 1000 ∧
    (∀ k : ℕ, backoffDelay defaultJobOptions.backoff (k + 1) =
      2 * backoffDelay defaultJobOptions.backoff k) ∧
    defaultJobOptions.removeOnComplete.count = 100 ∧
    defaultJobOptions.removeOnFail.count = 50 := by
  refine ⟨rfl, rfl, rfl, fun k => ?_, rfl, rfl⟩
  simp [backoffDelay, defaultJobOptions, pow_succ]
  ring

/-- C7: publishing for an order id with no registered channel does not
raise and leaves the registry and every channel unchanged; publishing to a
registered channel that is not in a writable (OPEN) state removes it from
the registry and sends nothing, leaving socket states unchanged. -/
theorem sendStatusUpdate_missing_or_unwritable
    (s : WSState) (orderId : String) (status : OrderStatus)
    (extra : Option String) :
    (lookupConn s.connections orderId = none →
      sendStatusUpdate s orderId status extra = (s, [])) ∧
    (∀ sid : ℕ, lookupConn s.connections orderId = some sid →
      s.socketState sid ≠ ReadyState.OPEN →
      sendStatusUpdate s orderId status extra =
        ({ s with connections := eraseConn s.connections orderId }, [])) := by
  constructor
  · intro h
    simp [sendStatusUpdate, h]
  · intro sid h hclosed
    simp [sendStatusUpdate, h, hclosed]

/-- Witness for C7: on a registry binding o1 to a CLOSED socket, publishing
for the unknown id o2 is a no-op and publishing for o1 prunes the binding
and sends nothing. -/
theorem sendStatusUpdate_missing_or_unwritable_witness :
    sendStatusUpdate wsClosedSample "o2" OrderStatus.ROUTING none =
      (wsClosedSample, []) ∧
    sendStatusUpdate wsClosedSample "o1" OrderStatus.ROUTING none =
      ({ wsClosedSample with
          connections := eraseConn wsClosedSample.connections "o1" }, []) :=
  ⟨(sendStatusUpdate_missing_or_unwritable wsClosedSample "o2"
      OrderStatus.ROUTING none).1 rfl,
   (sendStatusUpdate_missing_or_unwritable wsClosedSample "o1"
      OrderStatus.ROUTING none).2 0 rfl (by decide)⟩

/-- Keys of the registry after a removal form a sublist of the old keys. -/
theorem connKeys_eraseConn_sublist (conns : List (String × ℕ))
    (orderId : String) :
    List.Sublist (connKeys (eraseConn conns orderId)) (connKeys conns) :=
  List.Sublist.map _ (List.filter_sublist conns)

/-- The removed key is not among the keys after a removal. -/
theorem not_mem_connKeys_eraseConn (conns : List (String × ℕ))
    (orderId : String) :
    orderId ∉ connKeys (eraseConn conns orderId) := by
  intro hmem
  simp only [connKeys, eraseConn, List.mem_map] at hmem
  obtain ⟨p, hp, hpk⟩ := hmem
  have hfil := (List.mem_filter.mp hp).2
  rw [hpk] at hfil
  simp at hfil

/-- Registry insertion keeps the keys duplicate-free. -/
theorem connKeys_setConn_nodup (conns : List (String × ℕ))
    (orderId : String) (sid : ℕ) (h : (connKeys conns).Nodup) :
    (connKeys (setConn conns orderId sid)).Nodup := by
  have herase : (connKeys (eraseConn conns orderId)).Nodup :=
    (connKeys_eraseConn_sublist conns orderId).nodup h
  have hkeys : connKeys (setConn conns orderId sid) =
      connKeys (eraseConn conns orderId) ++ [orderId] := by
    simp [connKeys, setConn]
  rw [hkeys]
  refine List.Nodup.append herase (List.nodup_singleton orderId) ?_
  intro a ha hb
  rw [List.mem_singleton] at hb
  rw [hb] at ha
  exact not_mem_connKeys_eraseConn conns orderId ha

/-- The most recent binding wins the registry lookup. -/
theorem lookupConn_setConn_self (conns : List (String × ℕ))
    (orderId : String) (sid : ℕ) :
    lookupConn (setConn conns orderId sid) orderId = some sid := by
  unfold lookupConn setConn
  induction conns with
  | nil => simp [eraseConn]
  | cons p t ih =>
    by_cases hp : p.1 = orderId
    · simp only [eraseConn, List.filter, bne, hp, beq_self_eq_true,
        Bool.not_true] at ih ⊢
      exact ih
    · have hp' : (p.1 == orderId) = false := beq_eq_false_iff_ne.mpr hp
      simp only [eraseConn, List.filter] at ih ⊢
      rw [show (p.1 != orderId) = true by simp [bne, hp']]
      rw [List.cons_append, List.find?]
      rw [hp']
      exact ih

/-- Registry keys after closeConnection remain duplicate-free. -/
theorem connKeys_closeConnection_nodup (s : WSState) (orderId : String)
    (h : (connKeys s.connections).Nodup) :
    (connKeys (closeConnection s orderId).connections).Nodup := by
  unfold closeConnection
  cases hl : lookupConn s.connections orderId with
  | none => simpa using h
  | some sid =>
    simpa using (connKeys_eraseConn_sublist s.connections orderId).nodup h

/-- C8: registering a second channel for an id already bound to an OPEN
channel closes the first (its handle ends CLOSED) and replaces it (the
registry now resolves the id to the new handle); and the registry keys
stay duplicate-free — at most one channel per order id — across register,
publish and unregister. -/
theorem registerConnection_replaces_and_closes :
    (∀ (s : WSState) (orderId : String) (sid : ℕ),
      lookupConn (registerConnection s orderId sid).connections orderId =
        some sid) ∧
    (∀ (s : WSState) (orderId : String) (sid oldSid : ℕ),
      lookupConn s.connections orderId = some oldSid →
      s.socketState oldSid = ReadyState.OPEN →
      (registerConnection s orderId sid).socketState oldSid =
        ReadyState.CLOSED) ∧
    (∀ (s : WSState) (orderId : String) (sid : ℕ),
      (connKeys s.connections).Nodup →
      (connKeys (registerConnection s orderId sid).connections).Nodup) ∧
    (∀ (s : WSState) (orderId : String) (status : OrderStatus)
        (extra : Option String),
      (connKeys s.connections).Nodup →
      (connKeys (sendStatusUpdate s orderId status extra).1.connections).Nodup) ∧
    (∀ (s : WSState) (orderId : String),
      (connKeys s.connections).Nodup →
      (connKeys (closeConnection s orderId).connections).Nodup) := by
  refine ⟨fun s orderId sid => ?_, fun s orderId sid oldSid hl hopen => ?_,
    fun s orderId sid h => ?_, fun s orderId status extra h => ?_,
    fun s orderId => connKeys_closeConnection_nodup s orderId⟩
  · unfold registerConnection
    exact lookupConn_setConn_self _ orderId sid
  · simp only [registerConnection, closeConnection, hl, Option.isSome_some,
      if_true, hopen, if_pos]
    simp [Function.update_same]
  · unfold registerConnection
    by_cases hc : (lookupConn s.connections orderId).isSome
    · simp only [hc, if_true]
      exact connKeys_setConn_nodup _ orderId sid
        (connKeys_closeConnection_nodup s orderId h)
    · simp only [hc, if_false]
      exact connKeys_setConn_nodup _ orderId sid h
  · unfold sendStatusUpdate
    cases hl : lookupConn s.connections orderId with
    | none => simpa using h
    | some sid2 =>
      by_cases hs : s.socketState sid2 = ReadyState.OPEN
      · simpa [hs] using h
      · simpa [hs] using
          (connKeys_eraseConn_sublist s.connections orderId).nodup h

/-- Witness for C8: registering a new handle 1 for o1 on a registry binding
o1 to the OPEN handle 0 leaves the registry resolving o1 to 1, the old
handle CLOSED, and the keys duplicate-free. -/
theorem registerConnection_replaces_and_closes_witness :
    lookupConn (registerConnection wsOpenSample "o1" 1).connections "o1" =
      some 1 ∧
    (registerConnection wsOpenSample "o1" 1).socketState 0 =
      ReadyState.CLOSED ∧
    (connKeys (registerConnection wsOpenSample "o1" 1).connections).Nodup :=
  ⟨registerConnection_replaces_and_closes.1 wsOpenSample "o1" 1,
   registerConnection_replaces_and_closes.2.1 wsOpenSample "o1" 1 0 rfl rfl,
   registerConnection_replaces_and_closes.2.2.1 wsOpenSample "o1" 1
     (by simp [connKeys, wsOpenSample])⟩

/-- C9: in every reachable pool state, no more than 10 jobs are active and
no more than 100 job starts fall inside the sliding 60000 ms admission
window; and no step rejects a waiting job — a waiting job stays waiting or
becomes active. -/
theorem worker_pool_concurrency_and_rate_limit :
    (∀ s : PoolState, PoolReachable workerOptions s →
      s.active.length ≤ 10 ∧ startsInWindow s.starts s.time 60000 ≤ 100) ∧
    (∀ (s s' : PoolState) (id : String), PoolStep workerOptions s s' →
      id ∈ s.waiting → id ∈ s'.waiting ∨ id ∈ s'.active) := by
  constructor
  · intro s hs
    induction hs with
    | init => exact ⟨by simp, by simp [startsInWindow]⟩
    | step hr hstep ih =>
      rename_i s0 s1
      cases hstep with
      | enqueue id => exact ih
      | tick dt =>
        refine ⟨ih.1, le_trans ?_ ih.2⟩
        apply List.Sublist.length_le
        apply List.monotone_filter_right
        intro t ht
        simp only [decide_eq_true_eq] at ht ⊢
        omega
      | start id hw hc hr2 =>
        have hc' : s0.active.length < 10 := hc
        have hr2' : startsInWindow s0.starts s0.time 60000 < 100 := hr2
        constructor
        · simp only [List.length_append, List.length_singleton]
          omega
        · unfold startsInWindow at hr2' ⊢
          rw [List.filter_cons]
          rw [if_pos (by simp)]
          simp only [List.length_cons]
          omega
      | finish id ha =>
        exact ⟨le_trans (List.Sublist.length_le (List.erase_sublist _ _)) ih.1,
          ih.2⟩
  · intro s s' id hstep hmem
    cases hstep with
    | enqueue i => exact Or.inl (List.mem_append_left _ hmem)
    | tick dt => exact Or.inl hmem
    | start i hw hc hr2 =>
      by_cases hid : id = i
      · rw [hid]
        exact Or.inr (List.mem_append_right _ (List.mem_singleton_self i))
      · exact Or.inl ((List.mem_erase_of_ne hid).mpr hmem)
    | finish i ha => exact Or.inl hmem

/-- The idle pool state. -/
def initPool : PoolState :=
  { time := 0, waiting := [], active := [], starts := [] }

/-- A pool state with one waiting job at time 0. -/
def poolOneWaiting : PoolState :=
  { time := 0, waiting := ["j1"], active := [], starts := [] }

/-- The same pool one tick later. -/
def poolOneWaitingLater : PoolState :=
  { time := 1, waiting := ["j1"], active := [], starts := [] }

/-- Witness for C9: the invariant at the initial pool state, and waiting-job
preservation across a concrete tick step from a pool with one waiting job. -/
theorem worker_pool_concurrency_and_rate_limit_witness :
    (initPool.active.length ≤ 10 ∧
      startsInWindow initPool.starts initPool.time 60000 ≤ 100) ∧
    ("j1" ∈ poolOneWaitingLater.waiting ∨ "j1" ∈ poolOneWaitingLater.active) :=
  ⟨worker_pool_concurrency_and_rate_limit.1 initPool PoolReachable.init,
   worker_pool_concurrency_and_rate_limit.2 poolOneWaiting poolOneWaitingLater
     "j1" (PoolStep.tick poolOneWaiting 1) (by simp [poolOneWaiting])⟩

/-- C10: the intake validation rejects a new-order request exactly when
tokenIn, tokenOut or orderType is absent (undefined or empty, both falsy)
or the amount parameter parses to NaN or 0; a strictly negative amount
passes validation and an order record with that negative amount is created
and enqueued under the generated order id. -/
theorem validation_rejects_falsy_accepts_negative :
    (∀ (orderId : String) (q : ExecuteQuery),
      (∃ m, handleExecuteRequest orderId q = ExecuteOutcome.rejected m) ↔
        (q.tokenIn = none ∨ q.tokenIn = some "" ∨
         q.tokenOut = none ∨ q.tokenOut = some "" ∨
         q.amount = none ∨ q.amount = some 0 ∨
         q.orderType = none ∨ q.orderType = some "")) ∧
    (∀ (orderId tIn tOut oty : String) (a : ℚ),
      tIn ≠ "" → tOut ≠ "" → oty ≠ "" → a < 0 →
      handleExecuteRequest orderId
          { tokenIn := some tIn, tokenOut := some tOut, amount := some a,
            orderType := some oty } =
        ExecuteOutcome.accepted
          { id := orderId, tokenIn := tIn, tokenOut := tOut, amount := a,
            orderType := oty, status := OrderStatus.PENDING } orderId) := by
  have hiff : ∀ q : ExecuteQuery,
      (jsFalsyStr q.tokenIn || jsFalsyStr q.tokenOut || jsFalsyNum q.amount ||
        jsFalsyStr q.orderType) = true ↔
        (q.tokenIn = none ∨ q.tokenIn = some "" ∨
         q.tokenOut = none ∨ q.tokenOut = some "" ∨
         q.amount = none ∨ q.amount = some 0 ∨
         q.orderType = none ∨ q.orderType = some "") := by
    rintro ⟨tIn, tOut, am, oty⟩
    cases tIn <;> cases tOut <;> cases am <;> cases oty <;>
      simp [jsFalsyStr, jsFalsyNum, or_assoc]
  constructor
  · intro orderId q
    constructor
    · rintro ⟨m, hm⟩
      rw [← hiff q]
      by_contra hfalse
      unfold handleExecuteRequest at hm
      rw [if_neg hfalse] at hm
      cases hm
    · intro hdisj
      refine ⟨"Missing required parameters: tokenIn, tokenOut, amount, orderType", ?_⟩
      unfold handleExecuteRequest
      rw [if_pos ((hiff q).mpr hdisj)]
  · intro orderId tIn tOut oty a h1 h2 h3 h4
    have ha : a ≠ 0 := ne_of_lt h4
    simp [handleExecuteRequest, jsFalsyStr, jsFalsyNum, h1, h2, h3, ha]

/-- Witness for C10: the request with a negative amount −5 is accepted and
creates the record with amount −5 keyed by the order id, and the request
with a missing tokenIn is rejected. -/
theorem validation_rejects_falsy_accepts_negative_witness :
    handleExecuteRequest "oid"
        { tokenIn := some "SOL", tokenOut := some "USDC", amount := some (-5),
          orderType := some "MARKET" } =
      ExecuteOutcome.accepted
        { id := "oid", tokenIn := "SOL", tokenOut := "USDC", amount := -5,
          orderType := "MARKET", status := OrderStatus.PENDING } "oid" ∧
    (∃ m, handleExecuteRequest "oid"
        { tokenIn := none, tokenOut := some "USDC", amount := some 1,
          orderType := some "MARKET" } = ExecuteOutcome.rejected m) :=
  ⟨validation_rejects_falsy_accepts_negative.2 "oid" "SOL" "USDC" "MARKET"
      (-5) (by decide) (by decide) (by decide) (by norm_num),
   (validation_rejects_falsy_accepts_negative.1 "oid" _).mpr (Or.inl rfl)⟩

end OrderExec
